import Mathlib

/-!
Shallow embedding of `src/app.py` (Arabic PDF OCR web app).

The app is a linear pipeline: parse credentials, rasterize a PDF into one
image per page (`convert_pdf_to_images`), send each image to a remote OCR
service with an Arabic language hint (`detect_text_in_image`), then compose
a plain-text output and a structured (docx) output.  External collaborators
(the PDF parser `fitz`, the raster encoder, and the Google Vision client)
are modelled as function parameters collected in a `World` structure;
machine behaviour belonging to this repository is translated directly from
the source.
-/

set_option autoImplicit false

/-- Decidable equality of `Except` values, used to evaluate concrete runs. -/
instance {ε α : Type} [DecidableEq ε] [DecidableEq α] : DecidableEq (Except ε α)
  | .error e, .error f => decidable_of_iff (e = f) (by rw [Except.error.injEq])
  | .error _, .ok _ => isFalse (fun h => Except.noConfusion h)
  | .ok _, .error _ => isFalse (fun h => Except.noConfusion h)
  | .ok a, .ok b => decidable_of_iff (a = b) (by rw [Except.ok.injEq])

namespace ArabicOCR

/-- Abstract page of a parsed PDF document (rendering is external). -/
abbrev Page := Nat

/-- Abstract encoded raster image buffer (PNG bytes are opaque here). -/
abbrev Image := Nat

/-- Abstract parsed credential payload (result of `json.loads`). -/
abbrev CredInfo := Nat

/-- Abstract authenticated credential / client handle. -/
abbrev Credentials := Nat

/-- Raw byte buffer (the uploaded PDF contents). -/
abbrev Bytes := List Nat

/-- One text annotation of a Vision OCR response; `description` is the
recognized text (models the `description` field read at line 48). -/
structure TextAnnot where
  description : String
  deriving Repr, DecidableEq

/-- Vision OCR response; `text_annots` models the `text_annotations` list
inspected at line 47 of `src/app.py`. -/
structure OCRResponse where
  text_annots : List TextAnnot
  deriving Repr, DecidableEq

/-- The request sent by `client.text_detection(...)` at lines 43-46: the
image content plus the `language_hints` of the `image_context`. -/
structure OCRRequest where
  image : Image
  language_hints : List String
  deriving Repr, DecidableEq

/-- The request built by `detect_text_in_image` for one image: the image
bytes with the fixed Arabic language hint (lines 42-46). -/
def mkRequest (image_bytes : Image) : OCRRequest :=
  { image := image_bytes, language_hints := ["ar"] }

/-- `detect_text_in_image(image_bytes, client)` (lines 40-50): submit the
image with the Arabic hint; if the response has text annotations return the
first one's description, else return the empty string.  A raised exception
of the remote call is an `Except.error`. -/
def detect_text_in_image (image_bytes : Image)
    (client : OCRRequest → Except String OCRResponse) : Except String String :=
  match client (mkRequest image_bytes) with
  | .error e => .error e
  | .ok response =>
    match response.text_annots with
    | a :: _ => .ok a.description
    | [] => .ok ""

/-- `convert_pdf_to_images(pdf_bytes)` (lines 23-38): open the PDF from
memory (may raise on an invalid PDF), then render each page in document
order to an encoded image.  `parsePdf` models `fitz.open`, `render` models
`load_page`/`get_pixmap`/PNG encoding for one page. -/
def convert_pdf_to_images (parsePdf : Bytes → Except String (List Page))
    (render : Page → Image) (pdf_bytes : Bytes) : Except String (List Image) :=
  match parsePdf pdf_bytes with
  | .error e => .error e
  | .ok pages => .ok (pages.map render)

/-- The right-to-left embedding control character prepended to the
plain-text output (line 112). -/
def rtlMarker : String := "\u202B"

/-- The literal page separator of the plain-text output (line 112). -/
def pageSeparator : String := "\n\n--- Page Break ---\n\n"

/-- `txt_output` (line 112): the RTL marker followed by the page texts
joined with the page-break separator. -/
def txt_output (full_text : List String) : String :=
  rtlMarker ++ String.intercalate pageSeparator full_text

/-- Paragraph alignment values of `WD_ALIGN_PARAGRAPH` used by the app. -/
inductive Alignment where
  | LEFT
  | RIGHT
  | CENTER
  deriving Repr, DecidableEq

/-- A docx paragraph: its text and its (optionally set) alignment. -/
structure Paragraph where
  text : String
  alignment : Option Alignment
  deriving Repr, DecidableEq

/-- One element of the structured document body: a paragraph or an explicit
page break. -/
inductive DocElem where
  | para (p : Paragraph)
  | pageBreak
  deriving Repr, DecidableEq

/-- Loop body of the docx construction (lines 116-120), indexed: `n` is
`len(full_text)` and `i` the current index; a paragraph is added with right
alignment, then a page break when `i < n - 1`. -/
def buildDocFrom (n : Nat) : Nat → List String → List DocElem
  | _, [] => []
  | i, page_text :: rest =>
    (DocElem.para { text := page_text, alignment := some Alignment.RIGHT }) ::
      ((if i < n - 1 then [DocElem.pageBreak] else []) ++ buildDocFrom n (i + 1) rest)

/-- `doc` (lines 115-120): one right-aligned paragraph per page text, with a
page break after every paragraph except the last. -/
def buildDoc (full_text : List String) : List DocElem :=
  buildDocFrom full_text.length 0 full_text

/-- Whether a document element is a paragraph. -/
def isPara : DocElem → Bool
  | .para _ => true
  | .pageBreak => false

/-- Whether a document element is a page break. -/
def isBreak : DocElem → Bool
  | .para _ => false
  | .pageBreak => true

/-- The texts of the paragraphs of a document body, in order. -/
def paraTexts (d : List DocElem) : List String :=
  d.filterMap fun e =>
    match e with
    | .para p => some p.text
    | .pageBreak => none

/-- Observable user-facing events of one run, in emission order. -/
inductive Event where
  /-- an `st.info` status line -/
  | stepInfo (msg : String)
  /-- the Step 2/3 status that reports the page count (line 98) -/
  | pageCount (n : Nat)
  /-- invocation of `convert_pdf_to_images` (line 95) -/
  | rasterizerCall
  /-- one request submitted to the remote OCR service (line 102) -/
  | ocrRequest (req : OCRRequest)
  /-- a progress-bar update `(i + 1) / len(image_list)` (line 104) -/
  | progressReport (q : ℚ)
  /-- an `st.error` message -/
  | errorReported (msg : String)
  /-- the `st.success` message after step 3 (line 126) -/
  | successReported
  deriving Repr, DecidableEq

/-- External collaborators of one run, fixed for the run: the JSON parser,
the credential constructor, the PDF parser, the page renderer, and the
remote OCR service keyed by the authenticated credentials.  An
`Except.error` models a raised exception. -/
structure World where
  parseJson : String → Except String CredInfo
  mkCredentials : CredInfo → Except String Credentials
  parsePdf : Bytes → Except String (List Page)
  render : Page → Image
  textDetection : Credentials → OCRRequest → Except String OCRResponse

/-- User-supplied inputs of one run: the pasted credential string, the
uploaded PDF bytes, and the uploaded filename. -/
structure Inputs where
  api_key_json_str : String
  pdf_bytes : Bytes
  name : String

/-- Why a run produced no outputs. -/
inductive RunError where
  /-- the empty-credential guard fired (line 80) -/
  | missingKey
  /-- an exception reached the `except` block (lines 145-147) -/
  | exception (e : String)
  deriving Repr, DecidableEq

/-- The two download buffers (lines 131-143): file names and contents of
the plain-text and structured documents. -/
structure Outputs where
  txt_name : String
  txt_data : String
  docx_name : String
  docx_data : List DocElem
  deriving Repr, DecidableEq

/-- Result of one run: the emitted events and either the two download
buffers or the reason no buffers were produced.  Download buttons appear
only for an `ok` outcome (lines 129-143). -/
structure RunResult where
  events : List Event
  outcome : Except RunError Outputs
  deriving DecidableEq

/-- The fixed remediation hint shown after any exception (line 147). -/
def remediationHint : String :=
  "Please check your API key and make sure the Cloud Vision API is enabled for your project."

/-- The error message formatted at line 146 from the exception text. -/
def errorMessage (e : String) : String := "An error occurred: " ++ e

/-- The message of the empty-credential guard (line 81). -/
def missingKeyMessage : String :=
  "⚠️ Please paste your Google API Key in the sidebar to continue."

/-- Status line of step 1 (line 94). -/
def step1Message : String := "Step 1/3: Converting PDF pages to images..."

/-- Status line of step 3 (line 107). -/
def step3Message : String := "Step 3/3: Preparing your files for download..."

/-- The OCR loop (lines 99-104): for the `i`-th image, call
`detect_text_in_image` (emitting the request), append the text, and report
progress `(i + 1) / n` where `n = len(image_list)`.  A raised exception
stops the loop at that page, before its progress update. -/
def ocrPages (client : OCRRequest → Except String OCRResponse) (n : Nat) :
    Nat → List Image → List Event × Except String (List String)
  | _, [] => ([], .ok [])
  | i, image_bytes :: rest =>
    match detect_text_in_image image_bytes client with
    | .error e => ([Event.ocrRequest (mkRequest image_bytes)], .error e)
    | .ok text_from_page =>
      match ocrPages client n (i + 1) rest with
      | (evs, .error e) =>
        (Event.ocrRequest (mkRequest image_bytes) ::
           Event.progressReport (((i : ℚ) + 1) / (n : ℚ)) :: evs, .error e)
      | (evs, .ok ts) =>
        (Event.ocrRequest (mkRequest image_bytes) ::
           Event.progressReport (((i : ℚ) + 1) / (n : ℚ)) :: evs,
         .ok (text_from_page :: ts))

/-- Last index of character `c` in a character list, if any. -/
def rfindIdx (c : Char) : List Char → Option Nat
  | [] => none
  | x :: xs =>
    match rfindIdx c xs with
    | some i => some (i + 1)
    | none => if x = c then some 0 else none

/-- Root of `os.path.splitext` (line 109): split off the extension at the
last dot of the last path component, unless that component consists of
leading dots up to there. -/
def splitextRoot (name : String) : String :=
  let l := name.toList
  match rfindIdx '.' l with
  | none => name
  | some d =>
    let s : Int := match rfindIdx '/' l with | some i => (i : Int) | none => -1
    if s < (d : Int) then
      let start := (s + 1).toNat
      if ((l.drop start).take (d - start)).any (fun c => c ≠ '.') then
        String.mk (l.take d)
      else name
    else name

/-- Events and outcome of a run that reached the `except` block with
exception text `e`: the events so far, then the formatted error and the
fixed hint (lines 145-147); no download buffers. -/
def failResult (evs : List Event) (e : String) : RunResult :=
  { events := evs ++ [Event.errorReported (errorMessage e),
                      Event.errorReported remediationHint],
    outcome := .error (.exception e) }

/-- One full run of the app after the user presses the button with a file
uploaded (lines 79-147): guard against an empty credential string, then
parse credentials, rasterize, OCR each page, and compose the outputs; any
exception aborts into `failResult`. -/
def run (w : World) (inp : Inputs) : RunResult :=
  if inp.api_key_json_str = "" then
    { events := [Event.errorReported missingKeyMessage], outcome := .error .missingKey }
  else
    match w.parseJson inp.api_key_json_str with
    | .error e => failResult [] e
    | .ok credentials_info =>
      match w.mkCredentials credentials_info with
      | .error e => failResult [] e
      | .ok credentials =>
        match convert_pdf_to_images w.parsePdf w.render inp.pdf_bytes with
        | .error e => failResult [Event.stepInfo step1Message, Event.rasterizerCall] e
        | .ok image_list =>
          match ocrPages (w.textDetection credentials) image_list.length 0 image_list with
          | (pevs, .error e) =>
            failResult ([Event.stepInfo step1Message, Event.rasterizerCall,
              Event.pageCount image_list.length] ++ pevs) e
          | (pevs, .ok full_text) =>
            { events := [Event.stepInfo step1Message, Event.rasterizerCall,
                  Event.pageCount image_list.length] ++ pevs ++
                [Event.stepInfo step3Message, Event.successReported],
              outcome := .ok
                { txt_name := splitextRoot inp.name ++ "_OCR.txt",
                  txt_data := txt_output full_text,
                  docx_name := splitextRoot inp.name ++ "_OCR.docx",
                  docx_data := buildDoc full_text } }

/-- First exception raised by the per-page OCR calls, in page order. -/
def firstOcrError (client : OCRRequest → Except String OCRResponse) :
    List Image → Option String
  | [] => none
  | image_bytes :: rest =>
    match detect_text_in_image image_bytes client with
    | .error e => some e
    | .ok _ => firstOcrError client rest

/-- First exception raised by any step of a run (credential parsing,
credential construction, PDF rasterization, or a per-page OCR call), in
program order; `none` when every step succeeds. -/
def stepFailure (w : World) (inp : Inputs) : Option String :=
  match w.parseJson inp.api_key_json_str with
  | .error e => some e
  | .ok credentials_info =>
    match w.mkCredentials credentials_info with
    | .error e => some e
    | .ok credentials =>
      match w.parsePdf inp.pdf_bytes with
      | .error e => some e
      | .ok pages => firstOcrError (w.textDetection credentials) (pages.map w.render)

/-- The OCR requests among a list of events, in order. -/
def ocrRequestsOf (evs : List Event) : List OCRRequest :=
  evs.filterMap fun e =>
    match e with
    | .ocrRequest req => some req
    | _ => none

/-- The progress values among a list of events, in order. -/
def progressValuesOf (evs : List Event) : List ℚ :=
  evs.filterMap fun e =>
    match e with
    | .progressReport q => some q
    | _ => none

/-! ## Spec-side reference definitions

These definitions follow the wording of the specification (sections 4.3 and
8) rather than the source; the theorems below compare the source-derived
definitions against them. -/

/-- Join of the page texts as the spec words it: the separator appears
exactly between two consecutive pages, never before the first page and
never after the last. -/
def joinPages : List String → String
  | [] => ""
  | [t] => t
  | t :: ts => t ++ pageSeparator ++ joinPages ts

/-- The structured document as the spec words it: one right-aligned
paragraph per page, a page break between consecutive paragraphs, none after
the last. -/
def specDoc : List String → List DocElem
  | [] => []
  | [t] => [DocElem.para { text := t, alignment := some Alignment.RIGHT }]
  | t :: ts =>
    DocElem.para { text := t, alignment := some Alignment.RIGHT } ::
      DocElem.pageBreak :: specDoc ts

/-- Closed form of the events emitted by a fully successful OCR loop over
`imgs` starting at index `i` with `n` total pages. -/
def pageEventsFrom (n : Nat) : Nat → List Image → List Event
  | _, [] => []
  | i, b :: rest =>
    Event.ocrRequest (mkRequest b) ::
      Event.progressReport (((i : ℚ) + 1) / (n : ℚ)) :: pageEventsFrom n (i + 1) rest

/-- All OCR requests a run would issue, one per page in order, given the
world's PDF parse result; empty when the PDF does not parse. -/
def plannedRequests (w : World) (inp : Inputs) : List OCRRequest :=
  match w.parsePdf inp.pdf_bytes with
  | .ok pages => (pages.map w.render).map mkRequest
  | .error _ => []

/-- Whether an event belongs to the OCR loop (a request or a progress
update). -/
def isPageEvent : Event → Bool
  | .ocrRequest _ => true
  | .progressReport _ => true
  | _ => false

/-- Whether an event is an invocation of the rasterizer. -/
def isRasterizer : Event → Bool
  | .rasterizerCall => true
  | _ => false

/-! ## Concrete fixtures

Closed worlds and inputs used to evaluate the theorems on concrete runs. -/

/-- Fixture world in which every step succeeds: the PDF parses to two
pages, each page `p` renders to image `p + 10`, and the OCR service answers
every request with one annotation naming the image. -/
def okWorld : World where
  parseJson := fun _ => .ok 0
  mkCredentials := fun _ => .ok 0
  parsePdf := fun _ => .ok [0, 1]
  render := fun p => p + 10
  textDetection := fun _ req =>
    .ok { text_annots := [{ description := "text" ++ toString req.image }] }

/-- Fixture inputs: a nonempty credential string and a PDF filename. -/
def okInputs : Inputs where
  api_key_json_str := "service-account-key"
  pdf_bytes := [1, 2, 3]
  name := "scan.pdf"

/-- A structurally separate copy of `okInputs` with the same field values. -/
def okInputsCopy : Inputs where
  api_key_json_str := "service-account-key"
  pdf_bytes := [1, 2, 3]
  name := "scan.pdf"

/-- Fixture inputs with an empty credential string. -/
def emptyKeyInputs : Inputs := { okInputs with api_key_json_str := "" }

/-- Fixture world whose credential string fails to parse as JSON. -/
def badJsonWorld : World := { okWorld with parseJson := fun _ => .error "bad json" }

/-- Fixture world whose PDF fails to open. -/
def badPdfWorld : World := { okWorld with parsePdf := fun _ => .error "cannot open pdf" }

/-- Fixture world whose OCR calls all raise. -/
def ocrFailWorld : World :=
  { okWorld with textDetection := fun _ _ => .error "quota exceeded" }

/-- Fixture world whose OCR responses carry no text annotations. -/
def emptyRespWorld : World :=
  { okWorld with textDetection := fun _ _ => .ok { text_annots := [] } }

/-- Fixture world whose PDF parses to zero pages. -/
def zeroPageWorld : World := { okWorld with parsePdf := fun _ => .ok [] }

/-! ## String join lemmas -/

/-- Separator-prefixed tail join, the accumulator-free reading of
`String.intercalate.go`. -/
def joinTail (s : String) : List String → String
  | [] => ""
  | a :: as => s ++ (a ++ joinTail s as)

theorem intercalate_go_eq (s : String) :
    ∀ (as : List String) (acc : String),
      String.intercalate.go acc s as = acc ++ joinTail s as
  | [], acc => by
    simp only [String.intercalate.go, joinTail, String.append_empty]
  | a :: as, acc => by
    simp only [String.intercalate.go, joinTail]
    rw [intercalate_go_eq s as (acc ++ s ++ a)]
    rw [String.append_assoc, String.append_assoc]

theorem joinTail_eq_joinPages :
    ∀ (ts : List String), ts ≠ [] →
      joinTail pageSeparator ts = pageSeparator ++ joinPages ts
  | [], h => absurd rfl h
  | [t], _ => by
    show pageSeparator ++ (t ++ joinTail pageSeparator []) = pageSeparator ++ t
    rw [show joinTail pageSeparator [] = "" from rfl, String.append_empty]
  | t :: r :: rs, _ => by
    have ih := joinTail_eq_joinPages (r :: rs) (List.cons_ne_nil r rs)
    show pageSeparator ++ (t ++ joinTail pageSeparator (r :: rs)) =
        pageSeparator ++ (t ++ pageSeparator ++ joinPages (r :: rs))
    rw [ih, String.append_assoc t]

/-- `String.intercalate` computes exactly the spec-side join. -/
theorem intercalate_eq_joinPages :
    ∀ (ts : List String), String.intercalate pageSeparator ts = joinPages ts
  | [] => rfl
  | [t] => by
    show String.intercalate.go t pageSeparator [] = t
    rw [intercalate_go_eq, show joinTail pageSeparator [] = "" from rfl,
      String.append_empty]
  | t :: r :: rs => by
    show String.intercalate.go t pageSeparator (r :: rs) =
        t ++ pageSeparator ++ joinPages (r :: rs)
    rw [intercalate_go_eq, joinTail_eq_joinPages (r :: rs) (List.cons_ne_nil r rs),
      String.append_assoc t]

/-! ## Structured-document lemmas -/

theorem buildDocFrom_eq_specDoc :
    ∀ (ts : List String) (i n : Nat), i + ts.length = n →
      buildDocFrom n i ts = specDoc ts
  | [], _, _, _ => rfl
  | [t], i, n, h => by
    have hn : ¬ i < n - 1 := by simp at h; omega
    simp only [buildDocFrom, specDoc, if_neg hn, List.nil_append]
  | t :: r :: rs, i, n, h => by
    have hlt : i < n - 1 := by simp at h; omega
    have ih := buildDocFrom_eq_specDoc (r :: rs) (i + 1) n (by simp at h ⊢; omega)
    show DocElem.para { text := t, alignment := some Alignment.RIGHT } ::
        ((if i < n - 1 then [DocElem.pageBreak] else []) ++
          buildDocFrom n (i + 1) (r :: rs)) = specDoc (t :: r :: rs)
    rw [if_pos hlt, ih]
    rfl

/-- The docx loop of the source builds exactly the spec-side document. -/
theorem buildDoc_eq_specDoc (ts : List String) : buildDoc ts = specDoc ts :=
  buildDocFrom_eq_specDoc ts 0 ts.length (Nat.zero_add _)

theorem specDoc_countP_para :
    ∀ (ts : List String), (specDoc ts).countP isPara = ts.length
  | [] => rfl
  | [_] => rfl
  | t :: r :: rs => by
    have ih := specDoc_countP_para (r :: rs)
    show (DocElem.para { text := t, alignment := some Alignment.RIGHT } ::
        DocElem.pageBreak :: specDoc (r :: rs)).countP isPara = (t :: r :: rs).length
    rw [List.countP_cons, List.countP_cons, ih]
    rfl

theorem specDoc_countP_break :
    ∀ (ts : List String), (specDoc ts).countP isBreak = ts.length - 1
  | [] => rfl
  | [_] => rfl
  | t :: r :: rs => by
    have ih := specDoc_countP_break (r :: rs)
    show (DocElem.para { text := t, alignment := some Alignment.RIGHT } ::
        DocElem.pageBreak :: specDoc (r :: rs)).countP isBreak = (t :: r :: rs).length - 1
    rw [List.countP_cons, List.countP_cons, ih]
    simp [isBreak]

theorem specDoc_alignment :
    ∀ (ts : List String) (p : Paragraph), DocElem.para p ∈ specDoc ts →
      p.alignment = some Alignment.RIGHT
  | [], _, h => absurd h (List.not_mem_nil _)
  | [t], p, h => by
    rw [show specDoc [t] =
        [DocElem.para { text := t, alignment := some Alignment.RIGHT }] from rfl,
      List.mem_singleton] at h
    injection h with hp
    rw [hp]
  | t :: r :: rs, p, h => by
    rw [show specDoc (t :: r :: rs) =
        DocElem.para { text := t, alignment := some Alignment.RIGHT } ::
          DocElem.pageBreak :: specDoc (r :: rs) from rfl,
      List.mem_cons, List.mem_cons] at h
    rcases h with h | h | h
    · injection h with hp; rw [hp]
    · exact DocElem.noConfusion h
    · exact specDoc_alignment (r :: rs) p h

theorem specDoc_ne_nil : ∀ (ts : List String), ts ≠ [] → specDoc ts ≠ []
  | [], h => absurd rfl h
  | [_], _ => List.cons_ne_nil _ _
  | _ :: _ :: _, _ => List.cons_ne_nil _ _

theorem getLast?_cons_of_ne_nil {α : Type} (a : α) {l : List α} (h : l ≠ []) :
    (a :: l).getLast? = l.getLast? := by
  cases l with
  | nil => exact absurd rfl h
  | cons b bs => rw [List.getLast?_cons_cons]

theorem specDoc_getLast :
    ∀ (ts : List String), ts ≠ [] →
      ∃ p, (specDoc ts).getLast? = some (DocElem.para p)
  | [], h => absurd rfl h
  | [t], _ => ⟨{ text := t, alignment := some Alignment.RIGHT }, rfl⟩
  | t :: r :: rs, _ => by
    obtain ⟨p, hp⟩ := specDoc_getLast (r :: rs) (List.cons_ne_nil r rs)
    refine ⟨p, ?_⟩
    have hne := specDoc_ne_nil (r :: rs) (List.cons_ne_nil r rs)
    calc (specDoc (t :: r :: rs)).getLast?
        = (DocElem.pageBreak :: specDoc (r :: rs)).getLast? := by
          rw [show specDoc (t :: r :: rs) =
              DocElem.para { text := t, alignment := some Alignment.RIGHT } ::
                DocElem.pageBreak :: specDoc (r :: rs) from rfl]
          exact getLast?_cons_of_ne_nil _ (List.cons_ne_nil _ _)
      _ = (specDoc (r :: rs)).getLast? := getLast?_cons_of_ne_nil _ hne
      _ = some (DocElem.para p) := hp

theorem paraTexts_specDoc : ∀ (ts : List String), paraTexts (specDoc ts) = ts
  | [] => rfl
  | [t] => rfl
  | t :: r :: rs => by
    have ih := paraTexts_specDoc (r :: rs)
    simp only [specDoc, paraTexts, List.filterMap_cons] at ih ⊢
    rw [ih]

/-! ## OCR loop lemmas -/

theorem ocrRequestsOf_cons_req (r : OCRRequest) (evs : List Event) :
    ocrRequestsOf (Event.ocrRequest r :: evs) = r :: ocrRequestsOf evs := rfl

theorem ocrRequestsOf_cons_other (ev : Event) (evs : List Event)
    (h : ∀ r, ev ≠ Event.ocrRequest r) :
    ocrRequestsOf (ev :: evs) = ocrRequestsOf evs := by
  cases ev with
  | ocrRequest r => exact absurd rfl (h r)
  | stepInfo m => rfl
  | pageCount n => rfl
  | rasterizerCall => rfl
  | progressReport q => rfl
  | errorReported m => rfl
  | successReported => rfl

theorem ocrRequestsOf_append (a b : List Event) :
    ocrRequestsOf (a ++ b) = ocrRequestsOf a ++ ocrRequestsOf b := by
  simp only [ocrRequestsOf, List.filterMap_append]

theorem progressValuesOf_cons_prog (q : ℚ) (evs : List Event) :
    progressValuesOf (Event.progressReport q :: evs) = q :: progressValuesOf evs := rfl

theorem progressValuesOf_cons_other (ev : Event) (evs : List Event)
    (h : ∀ q, ev ≠ Event.progressReport q) :
    progressValuesOf (ev :: evs) = progressValuesOf evs := by
  cases ev with
  | progressReport q => exact absurd rfl (h q)
  | stepInfo m => rfl
  | pageCount n => rfl
  | rasterizerCall => rfl
  | ocrRequest r => rfl
  | errorReported m => rfl
  | successReported => rfl

theorem progressValuesOf_append (a b : List Event) :
    progressValuesOf (a ++ b) = progressValuesOf a ++ progressValuesOf b := by
  simp only [progressValuesOf, List.filterMap_append]

theorem ocrRequestsOf_pageEventsFrom (n : Nat) :
    ∀ (imgs : List Image) (i : Nat),
      ocrRequestsOf (pageEventsFrom n i imgs) = imgs.map mkRequest
  | [], _ => rfl
  | b :: rest, i => by
    have ih := ocrRequestsOf_pageEventsFrom n rest (i + 1)
    simp only [pageEventsFrom, List.map_cons]
    rw [ocrRequestsOf_cons_req,
      ocrRequestsOf_cons_other _ _ (fun r h => Event.noConfusion h), ih]

theorem progressValuesOf_pageEventsFrom (n : Nat) :
    ∀ (imgs : List Image) (i : Nat),
      progressValuesOf (pageEventsFrom n i imgs) =
        (List.range imgs.length).map (fun j : Nat => ((i : ℚ) + (j : ℚ) + 1) / (n : ℚ))
  | [], _ => rfl
  | b :: rest, i => by
    have ih := progressValuesOf_pageEventsFrom n rest (i + 1)
    simp only [pageEventsFrom, List.length_cons]
    rw [progressValuesOf_cons_other _ _ (fun q h => Event.noConfusion h),
      progressValuesOf_cons_prog, ih]
    rw [List.range_succ_eq_map, List.map_cons, List.map_map]
    refine congrArg₂ (· :: ·) (by push_cast; ring) ?_
    refine List.map_congr_left fun j _ => ?_
    simp only [Function.comp_apply, Nat.succ_eq_add_one]
    push_cast
    ring

theorem pageEventsFrom_all (n : Nat) :
    ∀ (imgs : List Image) (i : Nat) (ev : Event),
      ev ∈ pageEventsFrom n i imgs → isPageEvent ev = true
  | [], _, _, h => absurd h (List.not_mem_nil _)
  | b :: rest, i, ev, h => by
    rw [pageEventsFrom, List.mem_cons, List.mem_cons] at h
    rcases h with h | h | h
    · rw [h]; rfl
    · rw [h]; rfl
    · exact pageEventsFrom_all n rest (i + 1) ev h

/-- A fully successful OCR loop emits exactly the closed-form events and
produces texts pointwise related to the images by `detect_text_in_image`. -/
theorem ocrPages_ok (client : OCRRequest → Except String OCRResponse) (n : Nat) :
    ∀ (imgs : List Image) (i : Nat) (evs : List Event) (ts : List String),
      ocrPages client n i imgs = (evs, .ok ts) →
      evs = pageEventsFrom n i imgs ∧
        List.Forall₂ (fun b t => detect_text_in_image b client = .ok t) imgs ts
  | [], i, evs, ts, h => by
    rw [show ocrPages client n i [] = ([], .ok []) from rfl] at h
    rw [Prod.mk.injEq] at h
    obtain ⟨h1, h2⟩ := h
    rw [Except.ok.injEq] at h2
    exact ⟨h1.symm, h2 ▸ List.Forall₂.nil⟩
  | b :: rest, i, evs, ts, h => by
    rcases hd : detect_text_in_image b client with e | t
    · simp only [ocrPages, hd, Prod.mk.injEq] at h
      exact absurd h.2 (fun hh => Except.noConfusion hh)
    · rcases hrec : ocrPages client n (i + 1) rest with ⟨evs1, res1⟩
      rcases res1 with e | ts1
      · simp only [ocrPages, hd, hrec, Prod.mk.injEq] at h
        exact absurd h.2 (fun hh => Except.noConfusion hh)
      · simp only [ocrPages, hd, hrec, Prod.mk.injEq] at h
        obtain ⟨h1, h2⟩ := h
        rw [Except.ok.injEq] at h2
        obtain ⟨ih1, ih2⟩ := ocrPages_ok client n rest (i + 1) evs1 ts1 hrec
        constructor
        · rw [← h1, pageEventsFrom, ih1]
        · rw [← h2]
          exact List.Forall₂.cons hd ih2

/-- A failing OCR loop fails with the first per-page exception, emits only
loop events, and has issued requests for an initial segment of the pages. -/
theorem ocrPages_error (client : OCRRequest → Except String OCRResponse) (n : Nat) :
    ∀ (imgs : List Image) (i : Nat) (evs : List Event) (e : String),
      ocrPages client n i imgs = (evs, .error e) →
      firstOcrError client imgs = some e ∧
        (∃ k, ocrRequestsOf evs = (imgs.map mkRequest).take k) ∧
        (∀ ev ∈ evs, isPageEvent ev = true)
  | [], i, evs, e, h => by
    rw [show ocrPages client n i [] = ([], .ok []) from rfl] at h
    rw [Prod.mk.injEq] at h
    exact absurd h.2 (fun hh => Except.noConfusion hh)
  | b :: rest, i, evs, e, h => by
    rcases hd : detect_text_in_image b client with e1 | t
    · simp only [ocrPages, hd, Prod.mk.injEq] at h
      obtain ⟨h1, h2⟩ := h
      rw [Except.error.injEq] at h2
      refine ⟨?_, ⟨1, ?_⟩, ?_⟩
      · rw [firstOcrError, hd, h2]
      · rw [← h1]; rfl
      · intro ev hev
        rw [← h1, List.mem_singleton] at hev
        rw [hev]; rfl
    · rcases hrec : ocrPages client n (i + 1) rest with ⟨evs1, res1⟩
      rcases res1 with e1 | ts1
      · simp only [ocrPages, hd, hrec, Prod.mk.injEq] at h
        obtain ⟨h1, h2⟩ := h
        rw [Except.error.injEq] at h2
        obtain ⟨ih1, ⟨k, ih2⟩, ih3⟩ :=
          ocrPages_error client n rest (i + 1) evs1 e1 hrec
        refine ⟨?_, ⟨k + 1, ?_⟩, ?_⟩
        · rw [firstOcrError, hd, ih1, h2]
        · rw [← h1]
          rw [ocrRequestsOf_cons_req,
            ocrRequestsOf_cons_other _ _ (fun r hh => Event.noConfusion hh), ih2,
            List.map_cons, List.take_succ_cons]
        · intro ev hev
          rw [← h1, List.mem_cons, List.mem_cons] at hev
          rcases hev with hev | hev | hev
          · rw [hev]; rfl
          · rw [hev]; rfl
          · exact ih3 ev hev
      · simp only [ocrPages, hd, hrec, Prod.mk.injEq] at h
        exact absurd h.2 (fun hh => Except.noConfusion hh)

/-- When some page's OCR call raises, the loop result is that first
exception, whatever the start index. -/
theorem firstOcrError_run (client : OCRRequest → Except String OCRResponse)
    (n : Nat) :
    ∀ (imgs : List Image) (i : Nat) (e : String),
      firstOcrError client imgs = some e →
      (ocrPages client n i imgs).2 = .error e
  | [], _, _, h => absurd h (by rw [firstOcrError]; exact fun hh => Option.noConfusion hh)
  | b :: rest, i, e, h => by
    rcases hd : detect_text_in_image b client with e1 | t
    · rw [firstOcrError, hd, Option.some.injEq] at h
      simp only [ocrPages, hd]
      rw [h]
    · rw [firstOcrError, hd] at h
      have ih := firstOcrError_run client n rest (i + 1) e h
      rcases hrec : ocrPages client n (i + 1) rest with ⟨evs1, res1⟩
      rw [hrec] at ih
      simp only at ih
      rcases res1 with e1 | ts1
      · simp only [ocrPages, hd, hrec]
        rw [ih]
      · exact absurd ih (fun hh => Except.noConfusion hh)

/-- An OCR-request event contributes its request to `ocrRequestsOf`. -/
theorem mem_ocrRequestsOf (req : OCRRequest) (evs : List Event)
    (h : Event.ocrRequest req ∈ evs) : req ∈ ocrRequestsOf evs := by
  simp only [ocrRequestsOf]
  exact List.mem_filterMap.mpr ⟨Event.ocrRequest req, h, rfl⟩

/-- Every request produced by `mkRequest` carries the Arabic hint. -/
theorem hints_of_mem_map (req : OCRRequest) (imgs : List Image)
    (h : req ∈ imgs.map mkRequest) : req.language_hints = ["ar"] := by
  obtain ⟨b, _, hb⟩ := List.mem_map.mp h
  rw [← hb]
  rfl

/-! ## Run branch lemmas -/

theorem run_empty_key (w : World) (inp : Inputs)
    (h : inp.api_key_json_str = "") :
    run w inp = { events := [Event.errorReported missingKeyMessage],
                  outcome := .error .missingKey } := by
  rw [run, if_pos h]

theorem run_parse_error (w : World) (inp : Inputs) (e : String)
    (hkey : ¬ inp.api_key_json_str = "")
    (hpj : w.parseJson inp.api_key_json_str = .error e) :
    run w inp = failResult [] e := by
  rw [run, if_neg hkey, hpj]

theorem run_cred_error (w : World) (inp : Inputs) (ci : CredInfo) (e : String)
    (hkey : ¬ inp.api_key_json_str = "")
    (hpj : w.parseJson inp.api_key_json_str = .ok ci)
    (hmc : w.mkCredentials ci = .error e) :
    run w inp = failResult [] e := by
  simp only [run, if_neg hkey, hpj, hmc]

theorem run_pdf_error (w : World) (inp : Inputs) (ci : CredInfo)
    (cr : Credentials) (e : String)
    (hkey : ¬ inp.api_key_json_str = "")
    (hpj : w.parseJson inp.api_key_json_str = .ok ci)
    (hmc : w.mkCredentials ci = .ok cr)
    (hpdf : w.parsePdf inp.pdf_bytes = .error e) :
    run w inp = failResult [Event.stepInfo step1Message, Event.rasterizerCall] e := by
  have hc : convert_pdf_to_images w.parsePdf w.render inp.pdf_bytes = .error e := by
    simp only [convert_pdf_to_images, hpdf]
  simp only [run, if_neg hkey, hpj, hmc, hc]

theorem run_ocr_error (w : World) (inp : Inputs) (ci : CredInfo)
    (cr : Credentials) (pages : List Page) (pevs : List Event) (e : String)
    (hkey : ¬ inp.api_key_json_str = "")
    (hpj : w.parseJson inp.api_key_json_str = .ok ci)
    (hmc : w.mkCredentials ci = .ok cr)
    (hpdf : w.parsePdf inp.pdf_bytes = .ok pages)
    (hloop : ocrPages (w.textDetection cr) (pages.map w.render).length 0
      (pages.map w.render) = (pevs, .error e)) :
    run w inp = failResult ([Event.stepInfo step1Message, Event.rasterizerCall,
      Event.pageCount (pages.map w.render).length] ++ pevs) e := by
  have hc : convert_pdf_to_images w.parsePdf w.render inp.pdf_bytes =
      .ok (pages.map w.render) := by
    simp only [convert_pdf_to_images, hpdf]
  simp only [run, if_neg hkey, hpj, hmc, hc, hloop]

theorem run_success (w : World) (inp : Inputs) (ci : CredInfo)
    (cr : Credentials) (pages : List Page) (pevs : List Event)
    (texts : List String)
    (hkey : ¬ inp.api_key_json_str = "")
    (hpj : w.parseJson inp.api_key_json_str = .ok ci)
    (hmc : w.mkCredentials ci = .ok cr)
    (hpdf : w.parsePdf inp.pdf_bytes = .ok pages)
    (hloop : ocrPages (w.textDetection cr) (pages.map w.render).length 0
      (pages.map w.render) = (pevs, .ok texts)) :
    run w inp =
      { events := [Event.stepInfo step1Message, Event.rasterizerCall,
          Event.pageCount (pages.map w.render).length] ++ pevs ++
          [Event.stepInfo step3Message, Event.successReported],
        outcome := .ok
          { txt_name := splitextRoot inp.name ++ "_OCR.txt",
            txt_data := txt_output texts,
            docx_name := splitextRoot inp.name ++ "_OCR.docx",
            docx_data := buildDoc texts } } := by
  have hc : convert_pdf_to_images w.parsePdf w.render inp.pdf_bytes =
      .ok (pages.map w.render) := by
    simp only [convert_pdf_to_images, hpdf]
  simp only [run, if_neg hkey, hpj, hmc, hc, hloop]

/-! ## Claims -/

/-- C1: for every run on a valid PDF with pages `pages` in which all steps
succeed, the encoded page images, the per-page OCR texts accumulated in
`full_text`, the page segments joined into the plain-text output, and the
paragraphs of the structured document all number exactly `pages.length`,
index-aligned in document order (the `i`-th text is the OCR of the `i`-th
image, which is the rendering of the `i`-th page). -/
theorem claim1_page_counts (w : World) (inp : Inputs) (ci : CredInfo)
    (cr : Credentials) (pages : List Page) (pevs : List Event)
    (texts : List String)
    (hkey : ¬ inp.api_key_json_str = "")
    (hpj : w.parseJson inp.api_key_json_str = .ok ci)
    (hmc : w.mkCredentials ci = .ok cr)
    (hpdf : w.parsePdf inp.pdf_bytes = .ok pages)
    (hloop : ocrPages (w.textDetection cr) (pages.map w.render).length 0
      (pages.map w.render) = (pevs, .ok texts)) :
    convert_pdf_to_images w.parsePdf w.render inp.pdf_bytes =
      .ok (pages.map w.render) ∧
    (pages.map w.render).length = pages.length ∧
    texts.length = pages.length ∧
    List.Forall₂ (fun b t => detect_text_in_image b (w.textDetection cr) = .ok t)
      (pages.map w.render) texts ∧
    ∃ o : Outputs, (run w inp).outcome = .ok o ∧
      o.txt_data = txt_output texts ∧
      o.docx_data.countP isPara = pages.length ∧
      paraTexts o.docx_data = texts := by
  obtain ⟨hevs, hfa⟩ := ocrPages_ok _ _ _ _ _ _ hloop
  have hlen : texts.length = pages.length := by
    have h1 := List.Forall₂.length_eq hfa
    rw [List.length_map] at h1
    exact h1.symm
  refine ⟨by simp only [convert_pdf_to_images, hpdf], by rw [List.length_map],
    hlen, hfa, ?_⟩
  rw [run_success w inp ci cr pages pevs texts hkey hpj hmc hpdf hloop]
  refine ⟨_, rfl, rfl, ?_, ?_⟩
  · rw [buildDoc_eq_specDoc, specDoc_countP_para, hlen]
  · rw [buildDoc_eq_specDoc, paraTexts_specDoc]

/-- Witness for C1 on the concrete two-page fixture. -/
theorem claim1_page_counts_witness :
    (["text10", "text11"] : List String).length = ([0, 1] : List Page).length ∧
    List.Forall₂
      (fun b t => detect_text_in_image b (okWorld.textDetection 0) = .ok t)
      ([0, 1].map okWorld.render) ["text10", "text11"] := by
  have h := claim1_page_counts okWorld okInputs 0 0 [0, 1]
    (pageEventsFrom 2 0 [10, 11]) ["text10", "text11"]
    (by decide) rfl rfl rfl rfl
  exact ⟨h.2.2.1, h.2.2.2.1⟩

/-- C2: for every list of page texts, the plain-text output is the
right-to-left embedding character U+202B followed by the page texts
joined with the literal separator, the separator appearing only between
consecutive pages — never before the first page nor after the last
(`joinPages` places it exactly between adjacent entries). -/
theorem claim2_txt_layout (full_text : List String) :
    txt_output full_text = "\u202B" ++ joinPages full_text ∧
    pageSeparator = "\n\n--- Page Break ---\n\n" := by
  constructor
  · rw [txt_output, intercalate_eq_joinPages]
    rfl
  · rfl

/-- C3: for every nonempty list of page texts, the structured document is
one right-aligned paragraph per page with a page break after every
paragraph except the last: exactly `N` paragraphs, `N - 1` breaks, and the
final element is a paragraph, not a break. -/
theorem claim3_doc_structure (full_text : List String)
    (h : full_text ≠ []) :
    buildDoc full_text = specDoc full_text ∧
    (buildDoc full_text).countP isPara = full_text.length ∧
    (buildDoc full_text).countP isBreak = full_text.length - 1 ∧
    (∀ p : Paragraph, DocElem.para p ∈ buildDoc full_text →
      p.alignment = some Alignment.RIGHT) ∧
    (∃ p : Paragraph, (buildDoc full_text).getLast? = some (DocElem.para p)) := by
  refine ⟨buildDoc_eq_specDoc _, ?_, ?_, ?_, ?_⟩
  · rw [buildDoc_eq_specDoc, specDoc_countP_para]
  · rw [buildDoc_eq_specDoc, specDoc_countP_break]
  · intro p hp
    rw [buildDoc_eq_specDoc] at hp
    exact specDoc_alignment _ p hp
  · rw [buildDoc_eq_specDoc]
    exact specDoc_getLast _ h

/-- Witness for C3 on a concrete two-page text list. -/
theorem claim3_doc_structure_witness :
    (["a", "b"] : List String) ≠ [] ∧
    (buildDoc ["a", "b"]).countP isPara = 2 ∧
    (buildDoc ["a", "b"]).countP isBreak = 1 := by
  have h := claim3_doc_structure ["a", "b"] (by decide)
  exact ⟨by decide, h.2.1, h.2.2.1⟩

/-- C4: a page whose OCR response carries no text annotations contributes
the empty string (not an error) at its index, and the per-page text list is
not shortened. -/
theorem claim4_empty_annotations
    (client : OCRRequest → Except String OCRResponse) (n : Nat)
    (imgs : List Image) (pevs : List Event) (texts : List String)
    (j : Nat) (img : Image) (resp : OCRResponse)
    (hloop : ocrPages client n 0 imgs = (pevs, .ok texts))
    (hj : imgs[j]? = some img)
    (hresp : client (mkRequest img) = .ok resp)
    (hempty : resp.text_annots = []) :
    detect_text_in_image img client = .ok "" ∧
    texts.length = imgs.length ∧
    texts[j]? = some "" := by
  have hdet : detect_text_in_image img client = .ok "" := by
    simp only [detect_text_in_image, hresp, hempty]
  obtain ⟨_, hfa⟩ := ocrPages_ok client n imgs 0 pevs texts hloop
  rw [List.forall₂_iff_get] at hfa
  obtain ⟨hl, hget⟩ := hfa
  have hjlt : j < imgs.length := by
    by_contra hh
    rw [List.getElem?_eq_none (Nat.le_of_not_lt hh)] at hj
    exact Option.noConfusion hj
  have hts : j < texts.length := hl ▸ hjlt
  have hrel := hget j hjlt hts
  have hgetj : imgs.get ⟨j, hjlt⟩ = img := by
    rw [List.getElem?_eq_getElem hjlt] at hj
    exact Option.some.inj hj
  rw [hgetj, hdet] at hrel
  refine ⟨hdet, hl.symm, ?_⟩
  rw [List.getElem?_eq_getElem hts]
  have : texts.get ⟨j, hts⟩ = "" := (Except.ok.inj hrel).symm
  rw [show texts[j] = texts.get ⟨j, hts⟩ from rfl, this]

/-- Witness for C4 on the fixture whose OCR responses are empty. -/
theorem claim4_empty_annotations_witness :
    detect_text_in_image 10 (emptyRespWorld.textDetection 0) = .ok "" ∧
    (["", ""] : List String).length = ([10, 11] : List Image).length ∧
    (["", ""] : List String)[0]? = some "" :=
  claim4_empty_annotations (emptyRespWorld.textDetection 0) 2 [10, 11]
    (pageEventsFrom 2 0 [10, 11]) ["", ""] 0 10 { text_annots := [] }
    rfl rfl rfl rfl

/-- C5: with an empty credential string, or one that fails JSON parsing,
the very first reported event is an error, the rasterizer is never
invoked, no OCR request is ever issued, and no download buffers are
produced. -/
theorem claim5_invalid_credentials (w : World) (inp : Inputs) (e : String)
    (h : inp.api_key_json_str = "" ∨
      (¬ inp.api_key_json_str = "" ∧
        w.parseJson inp.api_key_json_str = .error e)) :
    (∃ m, (run w inp).events.head? = some (Event.errorReported m)) ∧
    Event.rasterizerCall ∉ (run w inp).events ∧
    (∀ req, Event.ocrRequest req ∉ (run w inp).events) ∧
    (∀ o : Outputs, (run w inp).outcome ≠ .ok o) := by
  rcases h with h | ⟨hkey, hpj⟩
  · rw [run_empty_key w inp h]
    refine ⟨⟨missingKeyMessage, rfl⟩, by simp, fun req => by simp, fun o => by simp⟩
  · rw [run_parse_error w inp e hkey hpj]
    refine ⟨⟨errorMessage e, rfl⟩, by simp [failResult],
      fun req => by simp [failResult], fun o => by simp [failResult]⟩

/-- Witness for C5 on the fixture whose credential string is not JSON. -/
theorem claim5_invalid_credentials_witness :
    Event.rasterizerCall ∉ (run badJsonWorld okInputs).events ∧
    Event.ocrRequest (mkRequest 10) ∉ (run badJsonWorld okInputs).events := by
  have h := claim5_invalid_credentials badJsonWorld okInputs "bad json"
    (Or.inr ⟨by decide, rfl⟩)
  exact ⟨h.2.1, h.2.2.1 (mkRequest 10)⟩

/-- OCR-loop events are never rasterizer invocations. -/
theorem isRasterizer_eq_false_of_pageEvent (ev : Event)
    (h : isPageEvent ev = true) : isRasterizer ev = false := by
  cases ev <;> simp [isPageEvent, isRasterizer] at h ⊢

/-- C6: when the credential string is nonempty and any step raises (JSON
parsing, credential construction, PDF rasterization, or any per-page OCR
call), the run terminates with that exception: the formatted error and the
fixed remediation hint are the final two reported events, no success is
reported, no download buffers are produced (so no partial per-page text is
exposed), the rasterizer ran at most once, and the OCR requests issued form
an initial, unrepeated segment of the planned per-page requests (no step is
retried). -/
theorem claim6_terminal_failure (w : World) (inp : Inputs) (e : String)
    (hkey : ¬ inp.api_key_json_str = "")
    (hfail : stepFailure w inp = some e) :
    (run w inp).outcome = .error (.exception e) ∧
    (∃ pre, (run w inp).events =
      pre ++ [Event.errorReported (errorMessage e),
              Event.errorReported remediationHint]) ∧
    Event.successReported ∉ (run w inp).events ∧
    (∀ o : Outputs, (run w inp).outcome ≠ .ok o) ∧
    (run w inp).events.countP isRasterizer ≤ 1 ∧
    (∃ k, ocrRequestsOf (run w inp).events = (plannedRequests w inp).take k) := by
  rcases hpj : w.parseJson inp.api_key_json_str with e1 | ci
  · simp only [stepFailure, hpj, Option.some.injEq] at hfail
    subst hfail
    rw [run_parse_error w inp e1 hkey hpj]
    exact ⟨rfl, ⟨[], rfl⟩, by simp [failResult], fun o => by simp [failResult],
      by simp [failResult, List.countP_cons, isRasterizer], ⟨0, rfl⟩⟩
  · rcases hmc : w.mkCredentials ci with e1 | cr
    · simp only [stepFailure, hpj, hmc, Option.some.injEq] at hfail
      subst hfail
      rw [run_cred_error w inp ci e1 hkey hpj hmc]
      exact ⟨rfl, ⟨[], rfl⟩, by simp [failResult], fun o => by simp [failResult],
        by simp [failResult, List.countP_cons, isRasterizer], ⟨0, rfl⟩⟩
    · rcases hpdf : w.parsePdf inp.pdf_bytes with e1 | pages
      · simp only [stepFailure, hpj, hmc, hpdf, Option.some.injEq] at hfail
        subst hfail
        rw [run_pdf_error w inp ci cr e1 hkey hpj hmc hpdf]
        exact ⟨rfl, ⟨[Event.stepInfo step1Message, Event.rasterizerCall], rfl⟩,
          by simp [failResult], fun o => by simp [failResult],
          by simp [failResult, List.countP_cons, isRasterizer], ⟨0, rfl⟩⟩
      · have hfo : firstOcrError (w.textDetection cr) (pages.map w.render) = some e := by
          simp only [stepFailure, hpj, hmc, hpdf] at hfail
          exact hfail
        have h2 := firstOcrError_run (w.textDetection cr)
          (pages.map w.render).length (pages.map w.render) 0 e hfo
        rcases hloop : ocrPages (w.textDetection cr) (pages.map w.render).length 0
          (pages.map w.render) with ⟨pevs, res⟩
        rw [hloop] at h2
        rcases res with e1 | ts
        · have he : e1 = e := Except.error.inj h2
          subst he
          rw [run_ocr_error w inp ci cr pages pevs e1 hkey hpj hmc hpdf hloop]
          obtain ⟨_, ⟨k, hreq⟩, hpage⟩ :=
            ocrPages_error (w.textDetection cr) _ (pages.map w.render) 0 pevs e1 hloop
          refine ⟨rfl, ⟨_, rfl⟩, ?_, fun o => by simp [failResult], ?_, ⟨k, ?_⟩⟩
          · intro hmem
            have hmem' : Event.successReported ∈
                (([Event.stepInfo step1Message, Event.rasterizerCall,
                  Event.pageCount (pages.map w.render).length] ++ pevs) ++
                 [Event.errorReported (errorMessage e1),
                  Event.errorReported remediationHint]) := hmem
            rcases List.mem_append.mp hmem' with hmem1 | hmem1
            · rcases List.mem_append.mp hmem1 with hmem2 | hmem2
              · simp at hmem2
              · exact absurd (hpage _ hmem2) (by decide)
            · simp at hmem1
          · have hz : pevs.countP isRasterizer = 0 :=
              List.countP_eq_zero.mpr fun a ha => by
                rw [isRasterizer_eq_false_of_pageEvent a (hpage a ha)]
                exact Bool.false_ne_true
            show ((([Event.stepInfo step1Message, Event.rasterizerCall,
              Event.pageCount (pages.map w.render).length] ++ pevs)) ++
              [Event.errorReported (errorMessage e1),
               Event.errorReported remediationHint]).countP isRasterizer ≤ 1
            rw [List.countP_append, List.countP_append, hz]
            simp [List.countP_cons, isRasterizer]
          · show ocrRequestsOf (([Event.stepInfo step1Message, Event.rasterizerCall,
              Event.pageCount (pages.map w.render).length] ++ pevs) ++
              [Event.errorReported (errorMessage e1),
               Event.errorReported remediationHint]) =
              (plannedRequests w inp).take k
            rw [ocrRequestsOf_append, ocrRequestsOf_append]
            rw [show ocrRequestsOf [Event.stepInfo step1Message, Event.rasterizerCall,
              Event.pageCount (pages.map w.render).length] = [] from rfl]
            rw [show ocrRequestsOf [Event.errorReported (errorMessage e1),
              Event.errorReported remediationHint] = [] from rfl]
            rw [hreq, List.nil_append, List.append_nil]
            rw [show plannedRequests w inp = (pages.map w.render).map mkRequest from by
              simp only [plannedRequests, hpdf]]
        · exact absurd h2 (fun hh => Except.noConfusion hh)

/-- Witness for C6 on the fixture whose OCR calls all raise. -/
theorem claim6_terminal_failure_witness :
    (run ocrFailWorld okInputs).outcome = .error (.exception "quota exceeded") ∧
    Event.successReported ∉ (run ocrFailWorld okInputs).events := by
  have h := claim6_terminal_failure ocrFailWorld okInputs "quota exceeded"
    (by decide) rfl
  exact ⟨h.1, h.2.2.1⟩

/-- C7: every request submitted to the OCR service during any run carries
the Arabic language hint `["ar"]`, and when a response has text
annotations, the string returned for the page is the description of the
first (full-document) annotation. -/
theorem claim7_language_hint :
    (∀ (w : World) (inp : Inputs) (req : OCRRequest),
      Event.ocrRequest req ∈ (run w inp).events → req.language_hints = ["ar"]) ∧
    (∀ (img : Image) (client : OCRRequest → Except String OCRResponse)
      (resp : OCRResponse) (a : TextAnnot) (rest : List TextAnnot),
      client (mkRequest img) = .ok resp → resp.text_annots = a :: rest →
      detect_text_in_image img client = .ok a.description) := by
  constructor
  · intro w inp req hmem
    by_cases hkey : inp.api_key_json_str = ""
    · rw [run_empty_key w inp hkey] at hmem
      simp at hmem
    · rcases hpj : w.parseJson inp.api_key_json_str with e1 | ci
      · rw [run_parse_error w inp e1 hkey hpj] at hmem
        simp [failResult] at hmem
      · rcases hmc : w.mkCredentials ci with e1 | cr
        · rw [run_cred_error w inp ci e1 hkey hpj hmc] at hmem
          simp [failResult] at hmem
        · rcases hpdf : w.parsePdf inp.pdf_bytes with e1 | pages
          · rw [run_pdf_error w inp ci cr e1 hkey hpj hmc hpdf] at hmem
            simp [failResult] at hmem
          · rcases hloop : ocrPages (w.textDetection cr)
              (pages.map w.render).length 0 (pages.map w.render) with ⟨pevs, res⟩
            rcases res with e1 | ts
            · rw [run_ocr_error w inp ci cr pages pevs e1 hkey hpj hmc hpdf hloop]
                at hmem
              have hmem' : Event.ocrRequest req ∈
                  (([Event.stepInfo step1Message, Event.rasterizerCall,
                    Event.pageCount (pages.map w.render).length] ++ pevs) ++
                   [Event.errorReported (errorMessage e1),
                    Event.errorReported remediationHint]) := hmem
              rcases List.mem_append.mp hmem' with h1 | h1
              · rcases List.mem_append.mp h1 with h2 | h2
                · simp at h2
                · obtain ⟨_, ⟨k, hreq⟩, _⟩ := ocrPages_error _ _ _ _ _ _ hloop
                  have hin := mem_ocrRequestsOf req pevs h2
                  rw [hreq] at hin
                  exact hints_of_mem_map req _ (List.mem_of_mem_take hin)
              · simp at h1
            · rw [run_success w inp ci cr pages pevs ts hkey hpj hmc hpdf hloop]
                at hmem
              obtain ⟨hevs, _⟩ := ocrPages_ok _ _ _ _ _ _ hloop
              have hmem' : Event.ocrRequest req ∈
                  (([Event.stepInfo step1Message, Event.rasterizerCall,
                    Event.pageCount (pages.map w.render).length] ++ pevs) ++
                   [Event.stepInfo step3Message, Event.successReported]) := hmem
              rcases List.mem_append.mp hmem' with h1 | h1
              · rcases List.mem_append.mp h1 with h2 | h2
                · simp at h2
                · have hin := mem_ocrRequestsOf req pevs h2
                  rw [hevs, ocrRequestsOf_pageEventsFrom] at hin
                  exact hints_of_mem_map req _ hin
              · simp at h1
  · intro img client resp a rest hresp hannots
    simp only [detect_text_in_image, hresp, hannots]

/-- Witness for C7 on the fully successful fixture and a concrete
single-annotation response. -/
theorem claim7_language_hint_witness :
    Event.ocrRequest (mkRequest 10) ∈ (run okWorld okInputs).events ∧
    (mkRequest 10).language_hints = ["ar"] ∧
    detect_text_in_image 7
      (fun _ => .ok { text_annots := [{ description := "hello" }] }) =
      .ok "hello" := by
  have hmem : Event.ocrRequest (mkRequest 10) ∈ (run okWorld okInputs).events := by
    rw [run_success okWorld okInputs 0 0 [0, 1] (pageEventsFrom 2 0 [10, 11])
      ["text10", "text11"] (by decide) rfl rfl rfl rfl]
    simp [pageEventsFrom]
  refine ⟨hmem, claim7_language_hint.1 okWorld okInputs (mkRequest 10) hmem,
    claim7_language_hint.2 7 _ { text_annots := [{ description := "hello" }] }
      { description := "hello" } [] rfl rfl⟩

/-- C8: a fully successful run performs rasterization, then the OCR loop,
then composition, in strict order (the event trace is exactly the step-1
status, the rasterizer call, the page-count report, the per-page
request/progress events, the step-3 status, and the success report); the
progress values are `1/N, 2/N, ...`, the `k`-th report equals `k/N`, and
the last report equals exactly `1`. -/
theorem claim8_orchestration (w : World) (inp : Inputs) (ci : CredInfo)
    (cr : Credentials) (pages : List Page) (pevs : List Event)
    (texts : List String)
    (hkey : ¬ inp.api_key_json_str = "")
    (hpj : w.parseJson inp.api_key_json_str = .ok ci)
    (hmc : w.mkCredentials ci = .ok cr)
    (hpdf : w.parsePdf inp.pdf_bytes = .ok pages)
    (hloop : ocrPages (w.textDetection cr) (pages.map w.render).length 0
      (pages.map w.render) = (pevs, .ok texts)) :
    (run w inp).events =
      [Event.stepInfo step1Message, Event.rasterizerCall,
       Event.pageCount (pages.map w.render).length] ++
      pageEventsFrom (pages.map w.render).length 0 (pages.map w.render) ++
      [Event.stepInfo step3Message, Event.successReported] ∧
    progressValuesOf (run w inp).events =
      (List.range pages.length).map
        (fun k : Nat => ((k : ℚ) + 1) / (pages.length : ℚ)) ∧
    (∀ k : Nat, 1 ≤ k → k ≤ pages.length →
      (progressValuesOf (run w inp).events)[k - 1]? =
        some ((k : ℚ) / (pages.length : ℚ))) ∧
    (1 ≤ pages.length →
      (progressValuesOf (run w inp).events).getLast? = some 1) := by
  obtain ⟨hevs, _⟩ := ocrPages_ok _ _ _ _ _ _ hloop
  subst hevs
  rw [run_success w inp ci cr pages _ texts hkey hpj hmc hpdf hloop]
  have hprog : progressValuesOf
      (([Event.stepInfo step1Message, Event.rasterizerCall,
        Event.pageCount (pages.map w.render).length] ++
        pageEventsFrom (pages.map w.render).length 0 (pages.map w.render)) ++
       [Event.stepInfo step3Message, Event.successReported]) =
      (List.range pages.length).map
        (fun k : Nat => ((k : ℚ) + 1) / (pages.length : ℚ)) := by
    rw [progressValuesOf_append, progressValuesOf_append]
    rw [show progressValuesOf [Event.stepInfo step1Message, Event.rasterizerCall,
      Event.pageCount (pages.map w.render).length] = [] from rfl]
    rw [show progressValuesOf [Event.stepInfo step3Message,
      Event.successReported] = [] from rfl]
    rw [List.nil_append, List.append_nil]
    rw [progressValuesOf_pageEventsFrom]
    simp only [List.length_map]
    refine List.map_congr_left fun j _ => ?_
    push_cast
    ring
  refine ⟨rfl, hprog, ?_, ?_⟩
  · intro k hk1 hk2
    rw [hprog]
    rw [List.getElem?_map, List.getElem?_range (by omega : k - 1 < pages.length)]
    rw [Option.map_some']
    congr 1
    rw [Nat.cast_sub hk1, Nat.cast_one]
    ring
  · intro hn
    rw [hprog, List.getLast?_eq_getElem?, List.length_map, List.length_range]
    rw [List.getElem?_map,
      List.getElem?_range (by omega : pages.length - 1 < pages.length)]
    rw [Option.map_some']
    congr 1
    rw [Nat.cast_sub hn, Nat.cast_one]
    have hne : ((pages.length : ℚ)) ≠ 0 :=
      Nat.cast_ne_zero.mpr (Nat.one_le_iff_ne_zero.mp hn)
    rw [sub_add_cancel, div_self hne]

/-- Witness for C8 on the concrete two-page fixture. -/
theorem claim8_orchestration_witness :
    1 ≤ ([0, 1] : List Page).length ∧
    (progressValuesOf (run okWorld okInputs).events).getLast? = some 1 := by
  have h := claim8_orchestration okWorld okInputs 0 0 [0, 1]
    (pageEventsFrom 2 0 [10, 11]) ["text10", "text11"] (by decide) rfl rfl rfl rfl
  exact ⟨by decide, h.2.2.2 (by decide)⟩

/-- C9: a run on a valid zero-page PDF completes successfully: the OCR loop
(and its division by the page count) never executes, no progress is ever
reported, the plain-text output is exactly the RTL marker with no
separator, and the structured document is empty. -/
theorem claim9_zero_pages (w : World) (inp : Inputs) (ci : CredInfo)
    (cr : Credentials)
    (hkey : ¬ inp.api_key_json_str = "")
    (hpj : w.parseJson inp.api_key_json_str = .ok ci)
    (hmc : w.mkCredentials ci = .ok cr)
    (hpdf : w.parsePdf inp.pdf_bytes = .ok []) :
    (run w inp).events = [Event.stepInfo step1Message, Event.rasterizerCall,
      Event.pageCount 0, Event.stepInfo step3Message, Event.successReported] ∧
    (∀ q : ℚ, Event.progressReport q ∉ (run w inp).events) ∧
    (run w inp).outcome = .ok
      { txt_name := splitextRoot inp.name ++ "_OCR.txt",
        txt_data := rtlMarker,
        docx_name := splitextRoot inp.name ++ "_OCR.docx",
        docx_data := [] } := by
  have hloop : ocrPages (w.textDetection cr)
      (([] : List Page).map w.render).length 0 (([] : List Page).map w.render) =
      ([], .ok []) := rfl
  rw [run_success w inp ci cr [] [] [] hkey hpj hmc hpdf hloop]
  refine ⟨rfl, fun q => by simp, ?_⟩
  rw [show txt_output [] = rtlMarker from rfl,
    show buildDoc ([] : List String) = ([] : List DocElem) from rfl]

/-- Witness for C9 on the zero-page fixture. -/
theorem claim9_zero_pages_witness :
    (run zeroPageWorld okInputs).events = [Event.stepInfo step1Message,
      Event.rasterizerCall, Event.pageCount 0, Event.stepInfo step3Message,
      Event.successReported] ∧
    Event.progressReport ((1 : ℚ) / 2) ∉ (run zeroPageWorld okInputs).events ∧
    (run zeroPageWorld okInputs).outcome = .ok
      { txt_name := "scan_OCR.txt", txt_data := rtlMarker,
        docx_name := "scan_OCR.docx", docx_data := [] } := by
  have h := claim9_zero_pages zeroPageWorld okInputs 0 0 (by decide) rfl rfl rfl
  refine ⟨h.1, h.2.1 ((1 : ℚ) / 2), ?_⟩
  rw [h.2.2]
  rfl

/-- C10: the pipeline is deterministic in its inputs and the remote
responses: two runs in the same world (same external parsing, rendering and
OCR behaviour) on equal credential strings, PDF bytes and filenames produce
identical events and identical download buffers. -/
theorem claim10_deterministic (w : World) (inp1 inp2 : Inputs)
    (hk : inp1.api_key_json_str = inp2.api_key_json_str)
    (hp : inp1.pdf_bytes = inp2.pdf_bytes)
    (hn : inp1.name = inp2.name) :
    run w inp1 = run w inp2 := by
  cases inp1 with
  | mk a b c =>
    cases inp2 with
    | mk d e f =>
      have hk' : a = d := hk
      have hp' : b = e := hp
      have hn' : c = f := hn
      subst hk'
      subst hp'
      subst hn'
      rfl

/-- Witness for C10 on two structurally separate but equal input records. -/
theorem claim10_deterministic_witness :
    okInputs.api_key_json_str = okInputsCopy.api_key_json_str ∧
    run okWorld okInputs = run okWorld okInputsCopy :=
  ⟨rfl, claim10_deterministic okWorld okInputs okInputsCopy rfl rfl rfl⟩

end ArabicOCR
